import Mathlib

/-!
Verification of the generic entity access layer of the Epic Event CRM
backend (`epic_event`): the path resolver, the repository filter/sort
operations, soft delete, the object-level permission evaluator, the
field visibility tables and the per-field validators.

The Python source is shallowly embedded: ORM rows are finite attribute
trees (`Obj`), the SQLAlchemy query pipeline becomes list filtering,
Python's stable `sorted` becomes a stable insertion sort, and fallible
query construction returns `Except`.
-/

/-- Scalar values stored in record attributes and used in filter maps. -/
inductive Value where
  | vint (n : Int)
  | vstr (s : String)
  | vbool (b : Bool)
  deriving DecidableEq, Repr

/-- A Python object graph as seen by `getattr`: `none` is Python `None`
(or a missing attribute), `val` a scalar column value, `node` an ORM
instance with named attributes (columns and to-one relations). -/
inductive Obj where
  | none
  | val (v : Value)
  | node (attrs : List (String × Obj))
  deriving Repr

mutual

/-- Decidable equality for the nested `Obj` inductive. -/
def Obj.decEq : (a b : Obj) → Decidable (a = b)
  | .none, .none => .isTrue rfl
  | .none, .val _ => .isFalse (fun h => Obj.noConfusion h)
  | .none, .node _ => .isFalse (fun h => Obj.noConfusion h)
  | .val _, .none => .isFalse (fun h => Obj.noConfusion h)
  | .val v, .val w =>
      if h : v = w then .isTrue (h ▸ rfl)
      else .isFalse (fun hh => h (Obj.val.inj hh))
  | .val _, .node _ => .isFalse (fun h => Obj.noConfusion h)
  | .node _, .none => .isFalse (fun h => Obj.noConfusion h)
  | .node _, .val _ => .isFalse (fun h => Obj.noConfusion h)
  | .node xs, .node ys =>
      match Obj.decEqAttrs xs ys with
      | .isTrue h => .isTrue (h ▸ rfl)
      | .isFalse h => .isFalse (fun hh => h (Obj.node.inj hh))

/-- Decidable equality for attribute lists. -/
def Obj.decEqAttrs : (xs ys : List (String × Obj)) → Decidable (xs = ys)
  | [], [] => .isTrue rfl
  | [], _ :: _ => .isFalse (fun h => List.noConfusion h)
  | _ :: _, [] => .isFalse (fun h => List.noConfusion h)
  | (a, x) :: t, (b, y) :: u =>
      match (instDecidableEqString a b : Decidable (a = b)),
            Obj.decEq x y, Obj.decEqAttrs t u with
      | .isTrue h1, .isTrue h2, .isTrue h3 =>
          .isTrue (by rw [h1, h2, h3])
      | .isFalse h1, _, _ =>
          .isFalse (fun hh => by
            simp only [List.cons.injEq, Prod.mk.injEq] at hh
            exact h1 hh.1.1)
      | _, .isFalse h2, _ =>
          .isFalse (fun hh => by
            simp only [List.cons.injEq, Prod.mk.injEq] at hh
            exact h2 hh.1.2)
      | _, _, .isFalse h3 =>
          .isFalse (fun hh => by
            simp only [List.cons.injEq, Prod.mk.injEq] at hh
            exact h3 hh.2)

end

instance : DecidableEq Obj := Obj.decEq

/-- Embeds `getattr(o, a, None)`: attribute lookup with a `None` default.
Scalars and `None` have no model attributes, so the default is hit. -/
def pyGetattr (o : Obj) (a : String) : Obj :=
  match o with
  | .node attrs =>
      match attrs.lookup a with
      | some v => v
      | Option.none => .none
  | _ => .none

/-- Python `s.split(".")` (single-character separator), written as
structural recursion over the character list so that it reduces. -/
def splitDotAux : List Char → List Char → List String
  | [], acc => [String.mk acc.reverse]
  | c :: cs, acc =>
      if c = '.' then String.mk acc.reverse :: splitDotAux cs []
      else splitDotAux cs (c :: acc)

/-- Embeds `path.split(".")` on a whole string. -/
def splitOnDot (s : String) : List String :=
  splitDotAux s.data []

/-- The empty-string sentinel the resolver returns on an absent value. -/
def sentinel : Obj := Obj.val (Value.vstr "")

/-- The loop body of `Entity._resolve`: walk the already-split path,
returning the empty-string sentinel as soon as the current value is
`None` or the next attribute is absent. -/
def resolveParts : Obj → List String → Obj
  | cur, [] => cur
  | .none, _ :: _ => sentinel
  | cur, a :: rest =>
      match pyGetattr cur a with
      | .none => sentinel
      | nxt => resolveParts nxt rest

/-- Embeds `Entity._resolve(obj, attr_path)` from `models/entity.py`. -/
def Entity._resolve (obj : Obj) (attr_path : String) : Obj :=
  resolveParts obj (splitOnDot attr_path)

/-- Modelled from the spec (§4.1): plain `Option`-valued path following,
used only to compare the source resolver against the specified
contract. `none` marks an absent intermediate value. -/
def followPath : Obj → List String → Option Obj
  | cur, [] => some cur
  | cur, a :: rest =>
      match pyGetattr cur a with
      | .none => Option.none
      | nxt => followPath nxt rest

/-- The class-level shape of one ORM model: its scalar column names and
its to-one relation attributes with the target model's name. Mirrors
what `getattr(cls, part)` and `attr.property.mapper.class_` expose. -/
structure Schema where
  name : String
  attrs : List String
  rels : List (String × String)
  deriving Repr, DecidableEq

/-- Embeds `Collaborator` columns and relations (`models/collaborator.py`). -/
def collaboratorSchema : Schema :=
  { name := "Collaborator"
    attrs := ["id", "full_name", "password", "email", "role", "archived"]
    rels := [("events", "Event"), ("clients", "Client")] }

/-- Embeds `Client` columns and relations (`models/client.py`). -/
def clientSchema : Schema :=
  { name := "Client"
    attrs := ["id", "full_name", "email", "phone", "company_name",
              "created_date", "last_contact_date", "id_commercial",
              "archived"]
    rels := [("contracts", "Contract"), ("commercial", "Collaborator")] }

/-- Embeds `Contract` columns and relations (`models/contract.py`). -/
def contractSchema : Schema :=
  { name := "Contract"
    attrs := ["id", "client_id", "total_amount", "amount_due",
              "created_date", "signed", "archived"]
    rels := [("client", "Client"), ("event", "Event")] }

/-- Embeds `Event` columns and relations (`models/event.py`). -/
def eventSchema : Schema :=
  { name := "Event"
    attrs := ["id", "title", "start_date", "end_date", "location",
              "participants", "notes", "archived", "contract_id",
              "support_id"]
    rels := [("contract", "Contract"), ("support", "Collaborator")] }

/-- The four entity kinds of the application. -/
def allSchemas : List Schema :=
  [collaboratorSchema, clientSchema, contractSchema, eventSchema]

/-- Look a schema up by model name, for walking relation chains. -/
def schemaOf (n : String) : Option Schema :=
  allSchemas.find? (fun s => s.name = n)

/-- SQL equality of a stored column value against a Python literal:
`col == None` compiles to `IS NULL`; `NULL == literal` is not true. -/
def sqlEq (o : Obj) (v : Value) : Bool :=
  match o with
  | .val w => w = v
  | _ => false

/-- SQL `IS NULL` test used when the filter value is Python `None`. -/
def sqlIsNull (o : Obj) : Bool :=
  match o with
  | .none => true
  | _ => false

/-- Row predicate produced by one `field_path = value` filter: every
path segment but the last steps through a to-one relation (an inner
join, so a null relation drops the row) and the last segment is tested
for SQL equality against the literal. -/
def filterPred (v : Option Value) : List String → Obj → Bool
  | [], _ => false
  | [a], o =>
      match v with
      | some w => sqlEq (pyGetattr o a) w
      | Option.none => sqlIsNull (pyGetattr o a)
  | a :: b :: rest, o =>
      match pyGetattr o a with
      | .none => false
      | rel => filterPred v (b :: rest) rel

/-- Check that a dotted filter path is well formed on the model class:
intermediate segments must be relation attributes (a scalar column has
no `property.mapper`) and the final segment must be a class attribute.
A bad segment raises `AttributeError` in the source. -/
def checkPath (s : Schema) : List String → Except String Unit
  | [] => .error "AttributeError"
  | [a] =>
      if s.attrs.contains a || (s.rels.lookup a).isSome then .ok ()
      else .error ("AttributeError: " ++ a)
  | a :: b :: rest =>
      match s.rels.lookup a with
      | some tgt =>
          match schemaOf tgt with
          | some s2 => checkPath s2 (b :: rest)
          | Option.none => .error ("AttributeError: " ++ a)
      | Option.none => .error ("AttributeError: " ++ a)

/-- Apply the caller's filters one by one, in insertion order, failing
with the first ill-formed path exactly as the query builder would. -/
def applyFilters (s : Schema) : List (String × Option Value) → List Obj →
    Except String (List Obj)
  | [], q => .ok q
  | (path, v) :: rest, q =>
      let parts := splitOnDot path
      match checkPath s parts with
      | .error e => .error e
      | .ok _ => applyFilters s rest (q.filter (filterPred v parts))

/-- Embeds the body of `Entity.filter_by_fields(db, archived, **filters)`
from `models/entity.py`, after argument binding has succeeded (for the
binding step itself see `Entity.filter_by_fields_call`). The row set of
the session is `rows`; eager-loading options are omitted because they
do not change which rows are returned, and joins along to-one
relations are expressed as row predicates. Filter values are scalars
or Python `None` (`Option Value`). -/
def Entity.filter_by_fields (s : Schema) (rows : List Obj)
    (archived : Bool)
    (filters : List (String × Option Value)) :
    Except String (List Obj) :=
  let q :=
    if s.attrs.contains "archived" && !archived then
      rows.filter (fun o => sqlEq (pyGetattr o "archived") (Value.vbool false))
    else rows
  match applyFilters s filters q with
  | .error e => .error e
  | .ok q2 =>
      .ok (if s.name = "Collaborator" then
             q2.filter (fun o => !(sqlEq (pyGetattr o "id") (Value.vint 1)))
           else q2)

/-- Embeds the call `Model.filter_by_fields(db, archived, **filters)`
as Python binds it: the keyword expansion of the filter map shares one
namespace with the named parameters `cls`, `db` and `archived`, so a
filter key repeating one of them raises `TypeError` before the body
runs; with no collision the body executes. -/
def Entity.filter_by_fields_call (s : Schema) (rows : List Obj)
    (archived : Bool) (filters : List (String × Option Value)) :
    Except String (List Obj) :=
  match filters.find? (fun fv =>
      fv.1 == "cls" || fv.1 == "db" || fv.1 == "archived") with
  | some fv =>
      .error ("TypeError: filter_by_fields() got multiple values for "
        ++ "argument \x27" ++ fv.1 ++ "\x27")
  | Option.none => Entity.filter_by_fields s rows archived filters

/-- One comparison step of Python `<` on resolved sort keys, for the
value shapes that are actually comparable (mixed shapes would raise
`TypeError` in Python and never occur under one sort key). -/
def objLt (a b : Obj) : Bool :=
  match a, b with
  | .val (.vint m), .val (.vint n) => m < n
  | .val (.vstr s), .val (.vstr t) => s < t
  | .val (.vbool x), .val (.vbool y) => !x && y
  | _, _ => false

/-- Stable insertion of `a` before the first element it must precede. -/
def orderedInsert (le : α → α → Bool) (a : α) : List α → List α
  | [] => [a]
  | b :: l => if le a b then a :: b :: l else b :: orderedInsert le a l

/-- Python's `sorted`: a stable sort with respect to `le`, where
`le a b` means `a` may stay in front of `b`. -/
def stableSort (le : α → α → Bool) : List α → List α
  | [] => []
  | b :: l => orderedInsert le b (stableSort le l)

/-- The `le` relation `sorted(results, key=..., reverse=descending)`
sorts by: ascending keeps `a` before `b` unless `key b < key a`,
descending unless `key a < key b` (stability preserved either way). -/
def sortedLe (key : α → Obj) (descending : Bool) (a b : α) : Bool :=
  if descending then !(objLt (key a) (key b)) else !(objLt (key b) (key a))

/-- The rows `Entity.order_by_fields` fetches before sorting: the
admin-role exclusion applied to collaborators, then the archived
exclusion. `joinedload` is omitted: it only pre-materializes relations. -/
def orderFetch (s : Schema) (rows : List Obj) (archived : Bool) : List Obj :=
  let q :=
    if s.name = "Collaborator" then
      rows.filter (fun o => !(sqlEq (pyGetattr o "role") (Value.vstr "admin")))
    else rows
  if s.attrs.contains "archived" && !archived then
    q.filter (fun o => sqlEq (pyGetattr o "archived") (Value.vbool false))
  else q

/-- Embeds `Entity.order_by_fields(db, field_path, descending, archived)` from
`models/entity.py`: fetch, then sort in memory with the resolver as the
key function. -/
def Entity.order_by_fields (s : Schema) (rows : List Obj)
    (field_path : String) (descending : Bool)
    (archived : Bool) : List Obj :=
  stableSort (sortedLe (fun o => Entity._resolve o field_path) descending)
    (orderFetch s rows archived)

/-- Write an attribute, replacing the first existing binding or
appending a new one (Python `setattr` semantics on an instance dict). -/
def setAttrList : List (String × Obj) → String → Obj → List (String × Obj)
  | [], a, v => [(a, v)]
  | (b, w) :: t, a, v =>
      if b = a then (a, v) :: t else (b, w) :: setAttrList t a v

/-- Embeds `setattr(o, a, v)` on an ORM instance. -/
def pySetattr (o : Obj) (a : String) (v : Obj) : Obj :=
  match o with
  | .node attrs => .node (setAttrList attrs a v)
  | other => other

/-- Embeds `Entity.soft_delete(self, db)` from `models/entity.py`: set the
`archived` flag to `True`, commit, and report `"success"`. Storage
failures are outside the pure embedding (the commit succeeds). -/
def Entity.soft_delete (o : Obj) : Obj × String :=
  (pySetattr o "archived" (Obj.val (Value.vbool true)), "success")

/-- A `Collaborator` row (`models/collaborator.py`); the bcrypt hash is
kept as an opaque string. -/
structure Collaborator where
  id : Int
  full_name : String
  password : String
  email : String
  role : String
  archived : Bool
  deriving DecidableEq, Repr

/-- A `Client` row (`models/client.py`); dates are kept as opaque
strings and the `commercial` relation is inlined. -/
structure Client where
  id : Int
  full_name : String
  email : String
  phone : String
  company_name : String
  created_date : String
  last_contact_date : String
  id_commercial : Option Int
  archived : Bool
  commercial : Option Collaborator
  deriving DecidableEq, Repr

/-- A `Contract` row (`models/contract.py`); amounts are stored as
strings in the source schema. -/
structure Contract where
  id : Int
  client_id : Int
  total_amount : String
  amount_due : String
  created_date : String
  signed : Bool
  archived : Bool
  deriving DecidableEq, Repr

/-- An `Event` row (`models/event.py`); the `support` relation is
inlined as the referenced collaborator, when any. -/
structure Event where
  id : Int
  title : String
  start_date : String
  end_date : String
  location : String
  participants : Int
  notes : String
  archived : Bool
  contract_id : Int
  support_id : Option Int
  support : Option Collaborator
  deriving DecidableEq, Repr

/-- The `isinstance`-dispatched argument of `has_object_permission`. -/
inductive DbItem where
  | collab (c : Collaborator)
  | client (c : Client)
  | contract (c : Contract)
  | event (e : Event)
  deriving DecidableEq, Repr

/-- Embeds `has_object_permission(user, action, item)` from `permission.py`.
Python `item == user` on ORM instances is identity in the session's
identity map, embedded as record equality. -/
def has_object_permission (user : Collaborator) (action : String)
    (item : DbItem) : Bool :=
  if user.role == "admin" then true
  else
    match item with
    | .collab c =>
        (c.id == user.id)
          || (user.role == "gestion" && action != "password")
          || (action == "password" && c == user)
    | .client cl => cl.commercial == some user
    | .contract _ => user.role == "gestion"
    | .event e =>
        e.support == some user
          || (user.role == "gestion" && action == "update")

/-- The `purpose` argument of the field tables; the source indexes a
dict whose only keys are these three strings. -/
inductive Purpose where
  | list
  | create
  | modify
  deriving DecidableEq, Repr

/-- Embeds `all_fields` of `Collaborator.get_fields`. -/
def Collaborator.all_fields : List (String × String) :=
  [("id", "Id"), ("full_name", "Nom"), ("password", "Mot de passe"),
   ("email", "Email"), ("role", "Service"), ("archived", "Archivé")]

/-- Embeds `excepted_fields` of `Collaborator.get_fields`. -/
def Collaborator.excepted_fields : Purpose → List (String × String)
  | .list => [("password", "Mot de passe"), ("archived", "Archivé")]
  | .create => [("id", "Id"), ("archived", "Archivé")]
  | .modify =>
      [("id", "Id"), ("password", "Mot de passe"), ("archived", "Archivé")]

/-- Embeds `Collaborator.get_fields(role, purpose)` from
`models/collaborator.py`. -/
def Collaborator.get_fields (role : String) (purpose : Purpose) :
    List (String × String) :=
  let fields := Collaborator.all_fields.filter
    (fun f => !((Collaborator.excepted_fields purpose).contains f))
  let fields :=
    if role == "admin" && purpose != Purpose.create then
      fields ++ [("archived", "Archivé")]
    else fields
  if !(["admin", "gestion"].contains role) && purpose != Purpose.list then []
  else fields

/-- Embeds `all_fields` of `Client.get_fields`. -/
def Client.all_fields : List (String × String) :=
  [("id", "Id"), ("full_name", "Nom du contact"), ("email", "Email"),
   ("phone", "Téléphone"), ("company_name", "Société"),
   ("created_date", "Date de création"),
   ("last_contact_date", "Dernier contact"),
   ("commercial.full_name", "Commercial"),
   ("id_commercial", "Id Commercial"), ("archived", "Archivé")]

/-- Embeds `excepted_fields` of `Client.get_fields`. -/
def Client.excepted_fields : Purpose → List (String × String)
  | .list => [("id_commercial", "Id Commercial"), ("archived", "Archivé")]
  | .create =>
      [("id", "Id"), ("commercial.full_name", "Commercial"),
       ("created_date", "Date de création"), ("archived", "Archivé")]
  | .modify =>
      [("id", "Id"), ("commercial.full_name", "Commercial"),
       ("archived", "Archivé")]

/-- Embeds `Client.get_fields(role, purpose)` from `models/client.py`. -/
def Client.get_fields (role : String) (purpose : Purpose) :
    List (String × String) :=
  let fields := Client.all_fields.filter
    (fun f => !((Client.excepted_fields purpose).contains f))
  let fields :=
    if role == "admin" && purpose != Purpose.create then
      fields ++ [("archived", "Archivé")]
    else fields
  if !(["admin", "commercial"].contains role) && purpose != Purpose.list
  then [] else fields

/-- Embeds `all_fields` of `Contract.get_fields`. -/
def Contract.all_fields : List (String × String) :=
  [("id", "Id"), ("client_id", "Id du client"),
   ("client.company_name", "Client"), ("total_amount", "Montant total"),
   ("amount_due", "Montant dû"), ("created_date", "Date de Creation"),
   ("signed", "Signature"), ("archived", "Archivé")]

/-- Embeds `excepted_fields` of `Contract.get_fields`. -/
def Contract.excepted_fields : Purpose → List (String × String)
  | .list => [("client_id", "Id du client"), ("archived", "Archivé")]
  | .create =>
      [("id", "Id"), ("client.company_name", "Client"),
       ("created_date", "Date de Creation"), ("archived", "Archivé")]
  | .modify =>
      [("id", "Id"), ("client_id", "Id du client"),
       ("client.company_name", "Client"),
       ("created_date", "Date de Creation"), ("archived", "Archivé")]

/-- Embeds `Contract.get_fields(role, purpose)` from `models/contract.py`. -/
def Contract.get_fields (role : String) (purpose : Purpose) :
    List (String × String) :=
  let fields := Contract.all_fields.filter
    (fun f => !((Contract.excepted_fields purpose).contains f))
  let fields :=
    if role == "admin" && purpose != Purpose.create then
      fields ++ [("archived", "Archivé")]
    else fields
  if !(["admin", "gestion"].contains role) && purpose != Purpose.list then []
  else fields

/-- Embeds `Event.get_field()` from `models/event.py`: takes neither role nor
purpose and always returns the full field table. -/
def Event.get_field : List (String × String) :=
  [("id", "Id"), ("contract_id", "Id du Contract"), ("title", "Titre"),
   ("start_date", "Date de début"), ("end_date", "Date de fin"),
   ("location", "Lieu"), ("participants", "Participants"),
   ("notes", "Notes"), ("support_id", "Id de l\x27Organisateur"),
   ("archived", "Archivé")]

/-- Modelled from the spec (§4.3): the field-visibility rule every kind
is claimed to follow — full table minus the purpose's exclusion set,
an extra archived descriptor for the admin role outside `create`, the
empty list outside `list` for roles not in the allow-list. -/
def fieldsSpec (allF : List (String × String))
    (excl : Purpose → List (String × String)) (allow : List String)
    (role : String) (purpose : Purpose) : List (String × String) :=
  let base := allF.filter (fun f => !((excl purpose).contains f))
  let base :=
    if role == "admin" && purpose != Purpose.create then
      base ++ [("archived", "Archivé")]
    else base
  if purpose != Purpose.list && !(allow.contains role) then [] else base

/-- The outcome of calling one per-field validator: either the Python
pair `(value, error)` or an exception that escapes the call. -/
inductive VResult (α : Type) where
  | ret (v : Option α) (e : Option String)
  | raised (msg : String)
  deriving DecidableEq, Repr

/-- Embeds `Event.validate_support_id(db, support_id)` from `models/event.py`:
a missing id is accepted as `(None, None)`, an unknown id is returned
as an error pair, but an existing collaborator outside the support
role makes the validator `raise ValueError`. -/
def Event.validate_support_id (db : List Collaborator)
    (support_id : Option Int) : VResult Int :=
  match support_id with
  | Option.none => .ret Option.none Option.none
  | some sid =>
      match db.find? (fun c => c.id == sid) with
      | Option.none =>
          .ret Option.none
            (some ("Collaborator ID " ++ toString sid ++ " not found."))
      | some c =>
          if c.role != "support" then
            .raised
              "The selected collaborator is not in the \x27support\x27 role."
          else .ret (some sid) Option.none

/-- Embeds `Collaborator.validate_archived(archived)` from
`models/collaborator.py`. -/
def Collaborator.validate_archived (archived : String) :
    Option Bool × Option String :=
  (some (["y", "yes", "true", "o", "oui"].contains archived.toLower),
   Option.none)

/-- Embeds `Client.validate_archived(archived)` from `models/client.py`. -/
def Client.validate_archived (archived : String) :
    Option Bool × Option String :=
  (some (["y", "yes", "true", "o", "oui"].contains archived.toLower),
   Option.none)

/-- Embeds `Contract.validate_archived(archived)` from `models/contract.py`. -/
def Contract.validate_archived (archived : String) :
    Option Bool × Option String :=
  (some (["y", "yes", "true", "o", "oui"].contains archived.toLower),
   Option.none)

/-- Embeds `Event.validate_archived(archived)` from `models/event.py`. -/
def Event.validate_archived (archived : String) :
    Option Bool × Option String :=
  (some (["y", "yes", "true", "o", "oui"].contains archived.toLower),
   Option.none)

/-- A raw Python value as the dispatcher hands it to a validator: a
user-entered string, an integer carried over from an ORM attribute, or
`None`. -/
inductive PyInput where
  | pstr (s : String)
  | pint (n : Int)
  | pnone
  deriving DecidableEq, Repr

/-- Python falsiness (`not x`): `None`, the empty string and zero. -/
def pyFalsy : PyInput → Bool
  | .pstr s => s == ""
  | .pint n => n == 0
  | .pnone => true

/-- Python `str(x)` on validator inputs, for message interpolation. -/
def pyStr : PyInput → String
  | .pstr s => s
  | .pint n => toString n
  | .pnone => "None"

/-- Decimal value of a digit run; fails at the first non-digit. -/
def pyDigitsAux : List Char → Nat → Option Nat
  | [], acc => some acc
  | c :: cs, acc =>
      if c.isDigit then pyDigitsAux cs (acc * 10 + (c.toNat - 48))
      else Option.none

/-- Decimal value of a nonempty all-digit run. -/
def pyDigits (l : List Char) : Option Nat :=
  match l with
  | [] => Option.none
  | _ :: _ => pyDigitsAux l 0

/-- Embeds Python `int(s)` on a string: surrounding spaces stripped, an
optional sign, then a nonempty digit run; anything else fails. -/
def parsePyInt (s : String) : Option Int :=
  let cs := ((s.data.dropWhile (fun c => c = ' ')).reverse.dropWhile
    (fun c => c = ' ')).reverse
  match cs with
  | '-' :: rest => (pyDigits rest).map (fun n => -(n : Int))
  | '+' :: rest => (pyDigits rest).map (fun n => (n : Int))
  | rest => (pyDigits rest).map (fun n => (n : Int))

/-- Embeds Python `int(x)` on a validator input: integers pass through,
strings parse or raise `ValueError`, `None` raises `TypeError`. -/
def pyInt : PyInput → Except String Int
  | .pint n => .ok n
  | .pstr s =>
      match parsePyInt s with
      | some n => .ok n
      | Option.none =>
          .error ("ValueError: invalid literal for int() with base 10: \x27"
            ++ s ++ "\x27")
  | .pnone => .error "TypeError: int() argument must not be None"

/-- Embeds `Client.validate_id_commercial(db, id_commercial)` from
`models/client.py`: a falsy id is reported as a missing-id error pair;
otherwise the lookup key is built with `int(id_commercial)`, which for
a non-numeric string raises `ValueError` past the boundary; a found
collaborator must hold the commercial role, else an error pair naming
the id is returned; on success the original input is returned. -/
def Client.validate_id_commercial (db : List Collaborator)
    (id_commercial : PyInput) : VResult PyInput :=
  if pyFalsy id_commercial then
    .ret Option.none (some "Missing commercial id.")
  else
    match pyInt id_commercial with
    | .error e => .raised e
    | .ok n =>
        match db.find? (fun c => c.id == n) with
        | Option.none =>
            .ret Option.none
              (some ("No commercial found with id=" ++ pyStr id_commercial
                ++ "."))
        | some c =>
            if c.role != "commercial" then
              .ret Option.none
                (some ("No commercial found with id=" ++ pyStr id_commercial
                  ++ "."))
            else .ret (some id_commercial) Option.none

/-- Looking up the attribute just written finds the written value. -/
theorem lookup_setAttrList (l : List (String × Obj)) (a : String) (v : Obj) :
    (setAttrList l a v).lookup a = some v := by
  induction l with
  | nil => simp [setAttrList]
  | cons hd t ih =>
      obtain ⟨b, w⟩ := hd
      by_cases h : b = a
      · simp [setAttrList, h]
      · simp [setAttrList, h, List.lookup]
        have : (a == b) = false := by
          simp [Ne.symm h]
        simp [this, ih]

/-- Writing the same attribute value twice is the same as writing once. -/
theorem setAttrList_idem (l : List (String × Obj)) (a : String) (v : Obj) :
    setAttrList (setAttrList l a v) a v = setAttrList l a v := by
  induction l with
  | nil => simp [setAttrList]
  | cons hd t ih =>
      obtain ⟨b, w⟩ := hd
      by_cases h : b = a
      · simp [setAttrList, h]
      · simp [setAttrList, h, ih]

/-- Membership is preserved by stable insertion. -/
theorem mem_orderedInsert (le : α → α → Bool) (a x : α) (l : List α) :
    x ∈ orderedInsert le a l ↔ x = a ∨ x ∈ l := by
  induction l with
  | nil => simp [orderedInsert]
  | cons b t ih =>
      by_cases h : le a b = true
      · simp [orderedInsert, h]
      · simp only [orderedInsert, h, if_false, Bool.not_eq_true] at *
        simp [List.mem_cons, ih]
        tauto

/-- The stable sort is a permutation in the membership sense. -/
theorem mem_stableSort (le : α → α → Bool) (x : α) (l : List α) :
    x ∈ stableSort le l ↔ x ∈ l := by
  induction l with
  | nil => simp [stableSort]
  | cons b t ih => simp [stableSort, mem_orderedInsert, ih]

/-- A stable sort whose relation accepts every adjacent pair of the
input leaves the list exactly as it was. -/
theorem stableSort_of_le (le : α → α → Bool) (l : List α)
    (h : ∀ a ∈ l, ∀ b ∈ l, le a b = true) : stableSort le l = l := by
  induction l with
  | nil => rfl
  | cons b t ih =>
      have ht : stableSort le t = t :=
        ih (fun a ha c hc =>
          h a (List.mem_cons_of_mem _ ha) c (List.mem_cons_of_mem _ hc))
      simp only [stableSort, ht]
      cases t with
      | nil => rfl
      | cons c u =>
          have hbc : le b c = true :=
            h b (List.mem_cons_self b (c :: u)) c
              (List.mem_cons_of_mem _ (List.mem_cons_self c u))
          simp [orderedInsert, hbc]

/-- Every row surviving the caller's filters came from the row set the
filters were applied to. -/
theorem mem_of_applyFilters (s : Schema) :
    ∀ (fs : List (String × Option Value)) (q out : List Obj),
      applyFilters s fs q = .ok out → ∀ o ∈ out, o ∈ q := by
  intro fs
  induction fs with
  | nil =>
      intro q out h o ho
      simp only [applyFilters] at h
      cases h
      exact ho
  | cons fv rest ih =>
      intro q out h o ho
      obtain ⟨path, v⟩ := fv
      simp only [applyFilters] at h
      split at h
      · exact absurd h (by simp)
      · exact List.mem_of_mem_filter (ih _ _ h o ho)

/-- C6. The resolver follows each path segment in order from the root
and, whenever an intermediate value is absent, stops and returns the
empty-string sentinel instead of failing: `Entity._resolve` coincides
with plain `Option`-valued path following defaulted to the sentinel. -/
theorem resolve_follows_path_with_sentinel (obj : Obj) (path : String) :
    Entity._resolve obj path =
      (match followPath obj (splitOnDot path) with
       | some v => v
       | Option.none => sentinel) := by
  unfold Entity._resolve
  have h : ∀ (parts : List String) (o : Obj),
      resolveParts o parts =
        (match followPath o parts with
         | some v => v
         | Option.none => sentinel) := by
    intro parts
    induction parts with
    | nil => intro o; simp [resolveParts, followPath]
    | cons a rest ih =>
        intro o
        cases o with
        | none => simp [resolveParts, followPath, pyGetattr]
        | val v => simp [resolveParts, followPath, pyGetattr]
        | node attrs =>
            cases hpg : pyGetattr (Obj.node attrs) a with
            | none => simp [resolveParts, followPath, hpg]
            | val v => simp [resolveParts, followPath, hpg, ih]
            | node ats => simp [resolveParts, followPath, hpg, ih]
  exact h _ obj

/-- C8. Soft deletion is idempotent on any ORM instance: both the first
and the second application report `"success"`, after the second the
`archived` flag reads `True`, and the second application does not
change the record any further. -/
theorem soft_delete_idempotent (attrs : List (String × Obj)) :
    (Entity.soft_delete (Obj.node attrs)).2 = "success" ∧
    (Entity.soft_delete (Entity.soft_delete (Obj.node attrs)).1).2 =
      "success" ∧
    pyGetattr (Entity.soft_delete (Entity.soft_delete (Obj.node attrs)).1).1
        "archived" = Obj.val (Value.vbool true) ∧
    (Entity.soft_delete (Entity.soft_delete (Obj.node attrs)).1).1 =
      (Entity.soft_delete (Obj.node attrs)).1 := by
  refine ⟨rfl, rfl, ?_, ?_⟩
  · simp [Entity.soft_delete, pySetattr, pyGetattr, lookup_setAttrList]
  · simp [Entity.soft_delete, pySetattr, setAttrList_idem]

/-- All four entity kinds carry the `archived` soft-delete column. -/
theorem archived_mem_schemas (s : Schema) (hs : s ∈ allSchemas) :
    s.attrs.contains "archived" = true := by
  simp only [allSchemas, List.mem_cons, List.not_mem_nil, or_false] at hs
  rcases hs with rfl | rfl | rfl | rfl <;> decide

/-- C1. For every entity kind, row set and filter map, a query with
`includeArchived = false` that returns normally never returns a record
whose archived flag is true. -/
theorem filter_excludes_archived (s : Schema) (hs : s ∈ allSchemas)
    (rows : List Obj) (filters : List (String × Option Value))
    (out : List Obj) (o : Obj)
    (hok : Entity.filter_by_fields s rows false filters = .ok out)
    (ho : o ∈ out) :
    pyGetattr o "archived" ≠ Obj.val (Value.vbool true) := by
  have harch := archived_mem_schemas s hs
  simp only [Entity.filter_by_fields, harch, Bool.not_false, Bool.and_self,
    if_true] at hok
  split at hok
  · exact absurd hok (by simp)
  · rename_i q2 hA
    rw [Except.ok.injEq] at hok
    have ho2 : o ∈ q2 := by
      by_cases hname : s.name = "Collaborator"
      · rw [if_pos hname] at hok
        rw [← hok] at ho
        exact List.mem_of_mem_filter ho
      · rw [if_neg hname] at hok
        rw [← hok] at ho
        exact ho
    have hoq := mem_of_applyFilters s filters _ q2 hA o ho2
    have hp := (List.mem_filter.mp hoq).2
    intro hcontra
    rw [hcontra] at hp
    simp [sqlEq] at hp

/-- Witness for C1 at a concrete client row set. -/
theorem filter_excludes_archived_witness :
    pyGetattr (Obj.node [("archived", Obj.val (Value.vbool false))])
        "archived" ≠ Obj.val (Value.vbool true) :=
  filter_excludes_archived clientSchema (by simp [allSchemas])
    [Obj.node [("archived", Obj.val (Value.vbool false))],
     Obj.node [("archived", Obj.val (Value.vbool true))]]
    []
    [Obj.node [("archived", Obj.val (Value.vbool false))]]
    (Obj.node [("archived", Obj.val (Value.vbool false))])
    rfl (by simp)

/-- Counterexample for C2: the filter map is keyword-expanded into the
same namespace as the named `archived` parameter, so filtering
`archived = true` while `includeArchived` stays false raises
`TypeError` at argument binding, before any query is built — the call
errors instead of returning an (empty) result list. -/
theorem filter_archived_kwarg_collision_cex :
    Entity.filter_by_fields_call collaboratorSchema
      [Obj.node [("id", Obj.val (Value.vint 7)),
                 ("archived", Obj.val (Value.vbool true))]]
      false [("archived", some (Value.vbool true))]
      = .error ("TypeError: filter_by_fields() got multiple values for "
          ++ "argument \x27archived\x27") ∧
    Entity.filter_by_fields_call collaboratorSchema
      [Obj.node [("id", Obj.val (Value.vint 7)),
                 ("archived", Obj.val (Value.vbool true))]]
      false [("archived", some (Value.vbool true))]
      ≠ .ok [] := by
  constructor
  · rfl
  · intro h
    rw [show Entity.filter_by_fields_call collaboratorSchema
        [Obj.node [("id", Obj.val (Value.vint 7)),
                   ("archived", Obj.val (Value.vbool true))]]
        false [("archived", some (Value.vbool true))]
        = .error ("TypeError: filter_by_fields() got multiple values for "
            ++ "argument \x27archived\x27") from rfl] at h
    exact Except.noConfusion h

/-- C2 as amended: for every entity kind, database state and archived
switch, calling the filter with an explicit `archived` key in the
filter map raises `TypeError` when the keyword expansion collides with
the named `archived` parameter — the combination is an error, and no
call can deliver an `archived` filter key to the query body. -/
theorem filter_archived_kwarg_collision (s : Schema) (rows : List Obj)
    (archived : Bool) :
    Entity.filter_by_fields_call s rows archived
      [("archived", some (Value.vbool true))]
      = .error ("TypeError: filter_by_fields() got multiple values for "
          ++ "argument \x27archived\x27") := rfl

/-- C9. Collaborator listings are special-cased: a filtered query never
returns the bootstrap administrative record with id 1, whatever the
archived switch and filters, and an ordered listing never returns a
row whose role is `"admin"`. -/
theorem collaborator_listing_exclusions :
    (∀ (rows : List Obj) (archived : Bool)
        (filters : List (String × Option Value)) (out : List Obj) (o : Obj),
        Entity.filter_by_fields collaboratorSchema rows archived filters
            = .ok out →
        o ∈ out → pyGetattr o "id" ≠ Obj.val (Value.vint 1)) ∧
    (∀ (rows : List Obj) (path : String) (descending archived : Bool)
        (o : Obj),
        o ∈ Entity.order_by_fields collaboratorSchema rows path descending
              archived →
        pyGetattr o "role" ≠ Obj.val (Value.vstr "admin")) := by
  constructor
  · intro rows archived filters out o hok ho
    simp only [Entity.filter_by_fields] at hok
    split at hok
    · exact absurd hok (by simp)
    · rename_i q2 hA
      rw [Except.ok.injEq] at hok
      have hname : collaboratorSchema.name = "Collaborator" := rfl
      rw [if_pos hname] at hok
      rw [← hok] at ho
      have hp := (List.mem_filter.mp ho).2
      intro hcontra
      rw [hcontra] at hp
      simp [sqlEq] at hp
  · intro rows path descending archived o hmem
    unfold Entity.order_by_fields at hmem
    rw [mem_stableSort] at hmem
    have heq : orderFetch collaboratorSchema rows archived =
        if !archived then
          (rows.filter
            (fun o => !(sqlEq (pyGetattr o "role") (Value.vstr "admin")))).filter
            (fun o => sqlEq (pyGetattr o "archived") (Value.vbool false))
        else
          rows.filter
            (fun o => !(sqlEq (pyGetattr o "role") (Value.vstr "admin"))) := rfl
    rw [heq] at hmem
    have hrole : o ∈ rows.filter
        (fun o => !(sqlEq (pyGetattr o "role") (Value.vstr "admin"))) := by
      cases archived with
      | false => simp only [Bool.not_false, if_true] at hmem
                 exact List.mem_of_mem_filter hmem
      | true => simpa using hmem
    have hp := (List.mem_filter.mp hrole).2
    intro hcontra
    rw [hcontra] at hp
    simp [sqlEq] at hp

/-- Witness for C9 at a two-row collaborator table. -/
theorem collaborator_listing_exclusions_witness :
    pyGetattr (Obj.node [("id", Obj.val (Value.vint 2)),
        ("role", Obj.val (Value.vstr "gestion")),
        ("archived", Obj.val (Value.vbool false))]) "id"
      ≠ Obj.val (Value.vint 1) ∧
    pyGetattr (Obj.node [("id", Obj.val (Value.vint 2)),
        ("role", Obj.val (Value.vstr "gestion")),
        ("archived", Obj.val (Value.vbool false))]) "role"
      ≠ Obj.val (Value.vstr "admin") := by
  constructor
  · exact collaborator_listing_exclusions.1
      [Obj.node [("id", Obj.val (Value.vint 1)),
        ("role", Obj.val (Value.vstr "admin")),
        ("archived", Obj.val (Value.vbool false))],
       Obj.node [("id", Obj.val (Value.vint 2)),
        ("role", Obj.val (Value.vstr "gestion")),
        ("archived", Obj.val (Value.vbool false))]]
      false []
      [Obj.node [("id", Obj.val (Value.vint 2)),
        ("role", Obj.val (Value.vstr "gestion")),
        ("archived", Obj.val (Value.vbool false))]]
      (Obj.node [("id", Obj.val (Value.vint 2)),
        ("role", Obj.val (Value.vstr "gestion")),
        ("archived", Obj.val (Value.vbool false))])
      rfl (by simp)
  · exact collaborator_listing_exclusions.2
      [Obj.node [("id", Obj.val (Value.vint 1)),
        ("role", Obj.val (Value.vstr "admin")),
        ("archived", Obj.val (Value.vbool false))],
       Obj.node [("id", Obj.val (Value.vint 2)),
        ("role", Obj.val (Value.vstr "gestion")),
        ("archived", Obj.val (Value.vbool false))]]
      "full_name" false false
      (Obj.node [("id", Obj.val (Value.vint 2)),
        ("role", Obj.val (Value.vstr "gestion")),
        ("archived", Obj.val (Value.vbool false))])
      (by rw [show Entity.order_by_fields collaboratorSchema
          [Obj.node [("id", Obj.val (Value.vint 1)),
            ("role", Obj.val (Value.vstr "admin")),
            ("archived", Obj.val (Value.vbool false))],
           Obj.node [("id", Obj.val (Value.vint 2)),
            ("role", Obj.val (Value.vstr "gestion")),
            ("archived", Obj.val (Value.vbool false))]]
          "full_name" false false =
          [Obj.node [("id", Obj.val (Value.vint 2)),
            ("role", Obj.val (Value.vstr "gestion")),
            ("archived", Obj.val (Value.vbool false))]] from rfl]
          simp)

/-- C7. When the requested path resolves to the empty-string sentinel
on every fetched row (an unknown path), ordering degrades gracefully:
the rows come back in their original, unsorted fetch order, for either
direction. -/
theorem order_by_unknown_path_keeps_order (s : Schema) (rows : List Obj)
    (path : String) (descending archived : Bool)
    (h : ∀ o ∈ orderFetch s rows archived, Entity._resolve o path = sentinel) :
    Entity.order_by_fields s rows path descending archived =
      orderFetch s rows archived := by
  unfold Entity.order_by_fields
  apply stableSort_of_le
  intro a ha b hb
  unfold sortedLe
  simp only [h a ha, h b hb]
  cases descending <;> simp [objLt, sentinel]

/-- Witness for C7: sorting one-row event table by a nonexistent field
leaves the fetched list unchanged. -/
theorem order_by_unknown_path_keeps_order_witness :
    Entity.order_by_fields eventSchema
      [Obj.node [("id", Obj.val (Value.vint 5)),
                 ("archived", Obj.val (Value.vbool false))]]
      "no_such_field" false false =
    orderFetch eventSchema
      [Obj.node [("id", Obj.val (Value.vint 5)),
                 ("archived", Obj.val (Value.vbool false))]] false :=
  order_by_unknown_path_keeps_order eventSchema
    [Obj.node [("id", Obj.val (Value.vint 5)),
               ("archived", Obj.val (Value.vbool false))]]
    "no_such_field" false false
    (by
      intro o ho
      rw [show orderFetch eventSchema
          [Obj.node [("id", Obj.val (Value.vint 5)),
                     ("archived", Obj.val (Value.vbool false))]] false =
          [Obj.node [("id", Obj.val (Value.vint 5)),
                     ("archived", Obj.val (Value.vbool false))]] from rfl]
          at ho
      rw [List.mem_singleton] at ho
      subst ho
      rfl)

/-- Counterexample for C3: an administrative user is authorized for the
`password` action on another collaborator's record, so the action is
not reserved to the record's own owner for every acting user. -/
theorem password_admin_bypass_cex :
    has_object_permission
        ⟨2, "Alice Admin", "hash", "alice@epic.io", "admin", false⟩
        "password"
        (DbItem.collab
          ⟨3, "Bob Support", "hash", "bob@epic.io", "support", false⟩)
      = true ∧
    (⟨3, "Bob Support", "hash", "bob@epic.io", "support", false⟩ :
        Collaborator) ≠
      ⟨2, "Alice Admin", "hash", "alice@epic.io", "admin", false⟩ ∧
    ((3 : Int) ≠ 2) := by
  refine ⟨rfl, ?_, by decide⟩
  intro h
  cases h

/-- C3 as amended: for every acting user outside the administrative
role, the `password` action on a collaborator record is authorized
exactly when the record carries the acting user's id, i.e. is the user
themself. -/
theorem password_only_owner_nonadmin (user c : Collaborator)
    (h : user.role ≠ "admin") :
    (has_object_permission user "password" (DbItem.collab c) = true ↔
      c.id = user.id) := by
  have hr : (user.role == "admin") = false := by
    simp [h]
  simp only [has_object_permission, hr, Bool.false_eq_true, if_false]
  simp only [Bool.or_eq_true, Bool.and_eq_true, beq_iff_eq]
  constructor
  · rintro ((h1 | ⟨_, h2⟩) | ⟨_, h3⟩)
    · exact h1
    · simp at h2
    · rw [h3]
  · intro h1
    exact Or.inl (Or.inl h1)

/-- Witness for C3's amended theorem at a concrete support user. -/
theorem password_only_owner_nonadmin_witness :
    (("support" : String) ≠ "admin") ∧
    (has_object_permission
        ⟨5, "Sam Support", "hash", "sam@epic.io", "support", false⟩
        "password"
        (DbItem.collab
          ⟨5, "Sam Support", "hash", "sam@epic.io", "support", false⟩)
        = true ↔ (5 : Int) = 5) :=
  ⟨by decide,
   password_only_owner_nonadmin
     ⟨5, "Sam Support", "hash", "sam@epic.io", "support", false⟩
     ⟨5, "Sam Support", "hash", "sam@epic.io", "support", false⟩
     (by decide)⟩

/-- Counterexample for C4: with a stored collaborator whose role is
`gestion`, validating that id as an event's support raises a
`ValueError` instead of returning a `(value, error)` pair. -/
theorem validate_support_id_raises_cex :
    Event.validate_support_id
        [⟨2, "Gina Gestion", "hash", "gina@epic.io", "gestion", false⟩]
        (some 2)
      = VResult.raised
          "The selected collaborator is not in the \x27support\x27 role." :=
  rfl

/-- C4 as amended: validators report detected failures as error pairs,
but the no-raise guarantee is not universal, and the raising
validators are characterized exactly: the event support-id validator
raises precisely when the id finds a stored collaborator outside the
support role, and the client commercial-id validator raises precisely
when its id is truthy and the `int()` key coercion fails; in every
other case both return `(value, error)` pairs. -/
theorem validator_raise_characterization (db : List Collaborator)
    (sid : Option Int) (idc : PyInput) :
    ((∃ msg, Event.validate_support_id db sid = VResult.raised msg) ↔
      (∃ n c, sid = some n ∧ db.find? (fun c2 => c2.id == n) = some c ∧
        c.role ≠ "support")) ∧
    ((∃ msg, Client.validate_id_commercial db idc = VResult.raised msg) ↔
      (pyFalsy idc = false ∧ ∃ e, pyInt idc = .error e)) := by
  constructor
  · cases sid with
    | none => simp [Event.validate_support_id]
    | some n =>
        cases hf : db.find? (fun c2 => c2.id == n) with
        | none => simp [Event.validate_support_id, hf]
        | some c =>
            by_cases hr : c.role = "support"
            · simp [Event.validate_support_id, hf, hr]
            · simp only [Event.validate_support_id, hf]
              rw [if_pos (by simpa using hr)]
              constructor
              · intro _
                exact ⟨n, c, rfl, hf, hr⟩
              · intro _
                exact ⟨_, rfl⟩
  · by_cases hf : pyFalsy idc = true
    · simp [Client.validate_id_commercial, hf]
    · have hf2 : pyFalsy idc = false := by simpa using hf
      cases hp : pyInt idc with
      | error e => simp [Client.validate_id_commercial, hf2, hp]
      | ok n =>
          cases hfind : db.find? (fun c => c.id == n) with
          | none => simp [Client.validate_id_commercial, hf2, hp, hfind]
          | some c =>
              by_cases hr : c.role = "commercial"
              · simp [Client.validate_id_commercial, hf2, hp, hfind, hr]
              · simp [Client.validate_id_commercial, hf2, hp, hfind, hr]

/-- Counterexample for C5: the event kind does not implement the
claimed rule. Its field function takes neither role nor purpose, and
returns the full ten-entry table — in particular not the empty list
that the rule requires for a role outside the allow-list with a
purpose other than `list` (e.g. the support role creating an event). -/
theorem event_fields_ignore_role_purpose_cex :
    Event.get_field.length = 10 ∧ Event.get_field ≠ [] ∧
    ("archived", "Archivé") ∈ Event.get_field := by
  decide

/-- C5 as amended: the collaborator, client and contract kinds follow
the claimed rule — full table minus the purpose's exclusion set, an
extra archived descriptor for the admin role outside `create`, the
empty list outside `list` for roles not in the kind's allow-list
(admin/gestion for collaborators and contracts, admin/commercial for
clients). The event kind is the exception settled by the
counterexample. -/
theorem get_fields_follow_spec_rule (role : String) (purpose : Purpose) :
    Collaborator.get_fields role purpose =
      fieldsSpec Collaborator.all_fields Collaborator.excepted_fields
        ["admin", "gestion"] role purpose ∧
    Client.get_fields role purpose =
      fieldsSpec Client.all_fields Client.excepted_fields
        ["admin", "commercial"] role purpose ∧
    Contract.get_fields role purpose =
      fieldsSpec Contract.all_fields Contract.excepted_fields
        ["admin", "gestion"] role purpose := by
  refine ⟨?_, ?_, ?_⟩ <;>
    simp only [Collaborator.get_fields, Client.get_fields,
      Contract.get_fields, fieldsSpec, Bool.and_comm]

/-- C10. The archived-field validator is identical on all four kinds,
never returns an error, and accepts exactly the lowercased tokens
`y`, `yes`, `true`, `o`, `oui`; every other input validates to false
instead of being rejected. -/
theorem validate_archived_accepts_tokens (s : String) :
    (Collaborator.validate_archived s = Client.validate_archived s ∧
     Client.validate_archived s = Contract.validate_archived s ∧
     Contract.validate_archived s = Event.validate_archived s) ∧
    (Collaborator.validate_archived s).2 = Option.none ∧
    ((Collaborator.validate_archived s).1 = some true ↔
      s.toLower ∈ (["y", "yes", "true", "o", "oui"] : List String)) ∧
    ((Collaborator.validate_archived s).1 = some false ↔
      s.toLower ∉ (["y", "yes", "true", "o", "oui"] : List String)) := by
  refine ⟨⟨rfl, rfl, rfl⟩, rfl, ?_, ?_⟩
  · simp [Collaborator.validate_archived]
  · simp [Collaborator.validate_archived]
